import Mathlib

/-!
Verification of `src/reliability_on_top_of_udp/main.js`: a CRC-8 checksum
codec, a probabilistic impairment channel (`createVirtualSocket`), and three
ARQ reliability-layer variants (`createReliabilityLayerWithACKNAK`,
`createReliabilityLayerWithACK`, `createReliabilityLayerWithNAK`).

Modelling conventions:
* JavaScript strings are modelled as lists of Unicode code points
  (`List Nat`); byte buffers as lists of naturals `< 256`.
* `Buffer.from(s, "utf8")` / `buffer.toString("utf8")` are modelled by
  `utf8Encode` / `utf8DecodeRepl` (WHATWG UTF-8, invalid sequences replaced
  by U+FFFD, maximal-subpart consumption), matching Node's behaviour.
* `Math.random()` results are modelled as nonnegative rational draws in
  `[0, 1)` represented as explicit numerator/denominator pairs (`Frac`),
  one field of a `Rand` record per random draw of `createVirtualSocket.send`;
  `x < p` on draws is the exact rational comparison `fracLt`, and
  `Math.floor(x * n)` is the exact `fracMulNatFloor`.
* JavaScript 32-bit bitwise semantics (`<<`, `^`, `&` apply ToInt32) are
  modelled by working with the unsigned 32-bit representative, i.e. by
  reducing shifts modulo `2 ^ 32`; bitwise ops on the signed value coincide
  with ops on that representative.
* `JSON.parse` results are modelled by the `JVal` tree; unparseable input is
  `Option.none`. JavaScript exceptions raised inside `receive`
  (`SyntaxError` from `JSON.parse`, `TypeError` from `Buffer.from`) are the
  `Except.error` results of the `receive` models.
-/

set_option maxRecDepth 100000

namespace RelUdp

/-! ### ChecksumCodec: `generateCRC8` / `verifyCRC8` (main.js lines 67-79) -/

/-- One iteration of the inner `for (let i = 0; i < 8; i++)` loop of
`generateCRC8`: `crc = (crc & 0x80) ? (crc << 1) ^ polynomial : crc << 1`,
with the JS 32-bit truncation of `<<` made explicit. -/
def crc8Round (crc : Nat) : Nat :=
  if crc &&& 0x80 ≠ 0 then ((crc <<< 1) % 4294967296) ^^^ 0x07
  else (crc <<< 1) % 4294967296

/-- Processing of one input byte by `generateCRC8`: `crc ^= byte` followed by
eight `crc8Round`s. -/
def crc8Byte (crc b : Nat) : Nat :=
  (List.range 8).foldl (fun c _ => crc8Round c) (crc ^^^ b)

/-- Model of `generateCRC8` (main.js lines 67-77) on a byte list: fold `crc8Byte`
from 0 over the bytes and mask the result with `0xff`. -/
def generateCRC8 (data : List Nat) : Nat :=
  (data.foldl crc8Byte 0) &&& 0xff

/-- Model of `verifyCRC8` (main.js line 79) at the byte level: `generateCRC8(data) === crc`
for a numeric `crc`. -/
def verifyCRC8 (data : List Nat) (crc : Nat) : Bool :=
  generateCRC8 data == crc

/-- ASCII bytes of the string `"123456789"`. -/
def asciiDigits : List Nat := [49, 50, 51, 52, 53, 54, 55, 56, 57]

/-- Flip bit `i` of a payload viewed as a flat bit sequence: byte `i / 8`,
bit `i % 8` within that byte. -/
def flipPayloadBit (p : List Nat) (i : Nat) : List Nat :=
  p.set (i / 8) ((p.getD (i / 8) 0) ^^^ (1 <<< (i % 8)))

/-! ### UTF-8: model of Node's `Buffer.from(string, "utf8")` and
`buffer.toString("utf8")` (WHATWG encoding: invalid sequences are replaced
by U+FFFD with maximal-subpart consumption). These are platform primitives
used by `generateCRC8` and `introduceBitError` in main.js. -/

/-- UTF-8 encoding of a single code point. Lone surrogates are encoded as
U+FFFD's bytes, as Node's Buffer does. -/
def utf8EncodeChar (c : Nat) : List Nat :=
  if c < 0x80 then [c]
  else if c < 0x800 then [0xC0 + c / 64, 0x80 + c % 64]
  else if 0xD800 ≤ c ∧ c ≤ 0xDFFF then [0xEF, 0xBF, 0xBD]
  else if c < 0x10000 then [0xE0 + c / 4096, 0x80 + c / 64 % 64, 0x80 + c % 64]
  else [0xF0 + c / 262144, 0x80 + c / 4096 % 64, 0x80 + c / 64 % 64, 0x80 + c % 64]

/-- UTF-8 encoding of a code-point sequence (a JS string). -/
def utf8Encode (s : List Nat) : List Nat := (s.map utf8EncodeChar).flatten

/-- Lower bound of the first continuation byte admitted after lead byte `b`
(WHATWG table: 0xA0 after 0xE0, 0x90 after 0xF0, else 0x80). -/
def utf8Cont1Lo (b : Nat) : Nat :=
  if b = 0xE0 then 0xA0 else if b = 0xF0 then 0x90 else 0x80

/-- Upper bound of the first continuation byte admitted after lead byte `b`
(WHATWG table: 0x9F after 0xED, 0x8F after 0xF4, else 0xBF). -/
def utf8Cont1Hi (b : Nat) : Nat :=
  if b = 0xED then 0x9F else if b = 0xF4 then 0x8F else 0xBF

/-- One step of the WHATWG UTF-8 decoder: given the first byte `b` and the
remaining bytes, return the decoded code point (U+FFFD on error) and the
total number of bytes consumed (the maximal subpart on error). -/
def utf8Step (b : Nat) (rest : List Nat) : Nat × Nat :=
  if b ≤ 0x7F then (b, 1)
  else if 0xC2 ≤ b ∧ b ≤ 0xDF then
    match rest with
    | c1 :: _ =>
      if 0x80 ≤ c1 ∧ c1 ≤ 0xBF then ((b - 0xC0) * 64 + (c1 - 0x80), 2)
      else (0xFFFD, 1)
    | [] => (0xFFFD, 1)
  else if 0xE0 ≤ b ∧ b ≤ 0xEF then
    match rest with
    | c1 :: rest1 =>
      if utf8Cont1Lo b ≤ c1 ∧ c1 ≤ utf8Cont1Hi b then
        match rest1 with
        | c2 :: _ =>
          if 0x80 ≤ c2 ∧ c2 ≤ 0xBF then
            ((b - 0xE0) * 4096 + (c1 - 0x80) * 64 + (c2 - 0x80), 3)
          else (0xFFFD, 2)
        | [] => (0xFFFD, 2)
      else (0xFFFD, 1)
    | [] => (0xFFFD, 1)
  else if 0xF0 ≤ b ∧ b ≤ 0xF4 then
    match rest with
    | c1 :: rest1 =>
      if utf8Cont1Lo b ≤ c1 ∧ c1 ≤ utf8Cont1Hi b then
        match rest1 with
        | c2 :: rest2 =>
          if 0x80 ≤ c2 ∧ c2 ≤ 0xBF then
            match rest2 with
            | c3 :: _ =>
              if 0x80 ≤ c3 ∧ c3 ≤ 0xBF then
                ((b - 0xF0) * 262144 + (c1 - 0x80) * 4096 + (c2 - 0x80) * 64
                  + (c3 - 0x80), 4)
              else (0xFFFD, 3)
            | [] => (0xFFFD, 3)
          else (0xFFFD, 2)
        | [] => (0xFFFD, 2)
      else (0xFFFD, 1)
    | [] => (0xFFFD, 1)
  else (0xFFFD, 1)

/-- Fuel-indexed driver of the UTF-8 decoder; `utf8Step` always consumes at
least one byte, so fuel equal to the list length suffices. -/
def utf8DecodeAux : Nat → List Nat → List Nat
  | _, [] => []
  | 0, _ :: _ => []
  | fuel + 1, b :: rest =>
    (utf8Step b rest).1 :: utf8DecodeAux fuel (rest.drop ((utf8Step b rest).2 - 1))

/-- Model of `buffer.toString("utf8")`: decode a byte list into code points,
replacing invalid sequences by U+FFFD. -/
def utf8DecodeRepl (l : List Nat) : List Nat := utf8DecodeAux l.length l

/-! ### PacketCodec: `JSON.stringify({ data, crc })` (main.js lines 4, 37, 84)
modelled at the code-point level. -/

/-- Code point of a lowercase hexadecimal digit. -/
def hexDigitCp (d : Nat) : Nat := if d < 10 then 48 + d else 87 + d

/-- JSON.stringify escaping of one string character: quote, backslash, the
control-character shorthands, `\u00XX` for the other controls, `\uXXXX` for
lone surrogates, everything else literal. -/
def jsonEscapeChar (c : Nat) : List Nat :=
  if c = 34 then [92, 34]
  else if c = 92 then [92, 92]
  else if c = 8 then [92, 98]
  else if c = 9 then [92, 116]
  else if c = 10 then [92, 110]
  else if c = 12 then [92, 102]
  else if c = 13 then [92, 114]
  else if c < 32 then [92, 117, 48, 48, hexDigitCp (c / 16), hexDigitCp (c % 16)]
  else if 0xD800 ≤ c ∧ c ≤ 0xDFFF then
    [92, 117, hexDigitCp (c / 4096 % 16), hexDigitCp (c / 256 % 16),
      hexDigitCp (c / 16 % 16), hexDigitCp (c % 16)]
  else [c]

/-- JSON string literal for a code-point sequence: quote, escaped body, quote. -/
def jsonQuote (s : List Nat) : List Nat :=
  34 :: (s.map jsonEscapeChar).flatten ++ [34]

/-- Fuel-indexed decimal digits of a natural number (most significant first),
as code points; fuel `n` suffices for the number `n` itself. -/
def natDecimalAux : Nat → Nat → List Nat
  | 0, n => [48 + n % 10]
  | fuel + 1, n =>
    if n < 10 then [48 + n] else natDecimalAux fuel (n / 10) ++ [48 + n % 10]

/-- Decimal representation of a natural number as code points. -/
def natDecimal (n : Nat) : List Nat := natDecimalAux n n

/-- The serialized envelope `JSON.stringify({ data, crc })` produced by each
layer's `send` for a given payload string: the characters of
`{"data":` ++ quoted payload ++ `,"crc":` ++ decimal crc ++ `}`, with
`crc = generateCRC8(Buffer.from(payload, "utf8"))`. -/
def envelopeString (payload : List Nat) : List Nat :=
  [123, 34, 100, 97, 116, 97, 34, 58] ++ jsonQuote payload
    ++ [44, 34, 99, 114, 99, 34, 58]
    ++ natDecimal (generateCRC8 (utf8Encode payload)) ++ [125]

/-! ### ImpairmentChannel: `createVirtualSocket` (main.js lines 129-166) -/

/-- A nonnegative rational value, used for `Math.random()` draws and the
channel's probability configuration. -/
structure Frac where
  num : Nat
  den : Nat
deriving DecidableEq

/-- Exact comparison `a < b` of two nonnegative fractions with positive
denominators, modelling JS `<` on the corresponding real values. -/
def fracLt (a b : Frac) : Prop := a.num * b.den < b.num * a.den

instance (a b : Frac) : Decidable (fracLt a b) := by
  unfold fracLt
  infer_instance

/-- Exact value of `Math.floor(f * n)` for a nonnegative fraction `f`. -/
def fracMulNatFloor (f : Frac) (n : Nat) : Nat := f.num * n / f.den

/-- A draw of `Math.random()` is in `[0, 1)`. -/
def ValidFrac (f : Frac) : Prop := 0 < f.den ∧ f.num < f.den

instance (f : Frac) : Decidable (ValidFrac f) := by
  unfold ValidFrac
  infer_instance

/-- The random draws consumed by one `createVirtualSocket.send` call, in
source order: the drop trial, the delay trial, the delay duration, the
corruption trial, and `introduceBitError`'s byte and bit choices. -/
structure Rand where
  dropRoll : Frac
  delayRoll : Frac
  delayFrac : Frac
  corruptRoll : Frac
  byteFrac : Frac
  bitFrac : Frac
deriving DecidableEq

/-- All six draws of a `Rand` are genuine `Math.random()` results in `[0, 1)`. -/
def ValidRand (r : Rand) : Prop :=
  ValidFrac r.dropRoll ∧ ValidFrac r.delayRoll ∧ ValidFrac r.delayFrac ∧
    ValidFrac r.corruptRoll ∧ ValidFrac r.byteFrac ∧ ValidFrac r.bitFrac

/-- The four construction parameters of `createVirtualSocket`
(main.js lines 129-134). -/
structure ChannelConfig where
  dropProbability : Frac
  delayProbability : Frac
  errorProbability : Frac
  maxDelayMs : Nat
deriving DecidableEq

/-- Flip bit `k` of byte `i` of a byte list (`buffer[byteIndex] ^= 1 << bitIndex`,
main.js line 160); an out-of-range index leaves the buffer unchanged, as a
Node Buffer does. -/
def flipBitAt (bs : List Nat) (i k : Nat) : List Nat :=
  bs.set i ((bs.getD i 0) ^^^ (1 <<< k))

/-- Byte lists `a` and `b` differ in exactly one bit of exactly one byte. -/
def oneBitApart (a b : List Nat) : Prop :=
  ∃ i < a.length, ∃ k < 8, b = flipBitAt a i k

instance (a b : List Nat) : Decidable (oneBitApart a b) := by
  unfold oneBitApart
  infer_instance

/-- Model of `introduceBitError` (main.js lines 156-163): encode the string to a UTF-8
buffer, flip one pseudo-randomly chosen bit of one pseudo-randomly chosen
byte, and convert the buffer back to a string with `toString("utf8")`. -/
def introduceBitError (r : Rand) (data : List Nat) : List Nat :=
  utf8DecodeRepl (flipBitAt (utf8Encode data)
    (fracMulNatFloor r.byteFrac (utf8Encode data).length)
    (fracMulNatFloor r.bitFrac 8))

/-- Model of `maybeCorruptData` (main.js lines 152-153): corrupt the string iff the
corruption trial fires. -/
def maybeCorruptData (cfg : ChannelConfig) (r : Rand) (data : List Nat) : List Nat :=
  if fracLt r.corruptRoll cfg.errorProbability then introduceBitError r data else data

/-- One invocation of a channel delivery callback: the artificial delay (in
ms, `none` for the immediate path) and the delivered string. -/
structure Delivery where
  delayMs : Option Frac
  data : List Nat
deriving DecidableEq

/-- Model of `createVirtualSocket.send` (main.js lines 136-149) as the list of
`callback` invocations it causes: none when the drop trial fires, otherwise
exactly one, delayed by `Math.random() * maxDelayMs` when the delay trial
fires, carrying `maybeCorruptData(data)`. -/
def virtualSocketSend (cfg : ChannelConfig) (r : Rand) (data : List Nat) :
    List Delivery :=
  if fracLt r.dropRoll cfg.dropProbability then []
  else if fracLt r.delayRoll cfg.delayProbability then
    [⟨some ⟨r.delayFrac.num * cfg.maxDelayMs, r.delayFrac.den⟩,
      maybeCorruptData cfg r data⟩]
  else [⟨none, maybeCorruptData cfg r data⟩]

/-! ### The composed demo path (main.js lines 171-183): each layer's `send`
passes its `handleResponse` directly to `virtualSocket.send`, so the
argument `handleResponse` receives is the delivered string itself — no
`receive` function is in this path. -/

/-- Code points of the string `"ACK"`. -/
def ackCp : List Nat := [65, 67, 75]

/-- Code points of the string `"NAK"`. -/
def nakCp : List Nat := [78, 65, 75]

/-- Model of `createReliabilityLayerWithACKNAK.send`'s response loop (main.js lines
6-17) composed with `createVirtualSocket.send`, counting invocations of the
producer's `callback`: a delivered response equal to `"ACK"` invokes it, a
response equal to `"NAK"` retransmits the identical packet with fresh
randomness, anything else does nothing. `fuel` bounds the retransmission
depth (the source recursion is unbounded); `rs` supplies the channel's
randomness for each successive transmission. -/
def acknakHandle (cfg : ChannelConfig) (rs : Nat → Rand) (packet : List Nat) :
    Nat → Nat
  | 0 => 0
  | fuel + 1 =>
    match virtualSocketSend cfg (rs 0) packet with
    | [] => 0
    | d :: _ =>
      if d.data = ackCp then 1
      else if d.data = nakCp then acknakHandle cfg (fun n => rs (n + 1)) packet fuel
      else 0

/-- Model of `createReliabilityLayerWithACKNAK.send(payload, callback)` in the demo
composition: serialize the payload with its CRC and run the response loop;
the result is the number of `callback` invocations. -/
def acknakSendCbCount (cfg : ChannelConfig) (rs : Nat → Rand)
    (payload : List Nat) (fuel : Nat) : Nat :=
  acknakHandle cfg rs (envelopeString payload) fuel

/-! ### The receive functions (main.js lines 20-29, 53-62, 111-120), modelled
on `JSON.parse` results. -/

/-- A parsed JSON value (the result of `JSON.parse`). Object fields are kept
in textual order; on duplicate keys the last occurrence wins, as in JS. -/
inductive JVal where
  | jNull : JVal
  | jBool : Bool → JVal
  | jNum : Int → JVal
  | jStr : List Nat → JVal
  | jArr : List Int → JVal
  | jObj : List (String × JVal) → JVal

/-- A JavaScript exception escaping `receive`: `SyntaxError` from
`JSON.parse` on unparseable text, or `TypeError` from destructuring `null`
or from `Buffer.from` on an unsupported `data` value. -/
inductive JsError where
  | parseErr : JsError
  | typeErr : JsError
deriving DecidableEq

/-- The value returned by a `receive` function: the string `"ACK"`, the
string `"NAK"`, or `null`. -/
inductive Signal where
  | ack : Signal
  | nak : Signal
  | none : Signal
deriving DecidableEq

/-- Property lookup on a parsed JSON object: the last binding of the key
wins (later duplicate keys overwrite earlier ones in `JSON.parse`). -/
def lookupField (fields : List (String × JVal)) (k : String) : Option JVal :=
  fields.reverse.lookup k

/-- Property access `v.k` as performed by `const { data, crc } = JSON.parse(...)`:
destructuring `null` throws a TypeError; a missing property (and any
property of a primitive) is `undefined`, modelled as `Option.none`. -/
def getField (v : JVal) (k : String) : Except JsError (Option JVal) :=
  match v with
  | .jNull => .error .typeErr
  | .jObj fields => .ok (lookupField fields k)
  | _ => .ok Option.none

/-- Model of `Buffer.from(x, "utf8")` on a destructured field: a string encodes to its
UTF-8 bytes; an array of numbers becomes their low bytes; `undefined`,
numbers, booleans and `null` throw a TypeError. -/
def bufferFromUtf8 : Option JVal → Except JsError (List Nat)
  | some (.jStr s) => .ok (utf8Encode s)
  | some (.jArr xs) => .ok (xs.map fun x => (x % 256).toNat)
  | _ => .error .typeErr

/-- JS strict equality `crcField === n` for the number `n` produced by
`generateCRC8`: true exactly when the field is that number (values of any
other type are never strictly equal to a number). -/
def jsStrictEqNum (v : Option JVal) (n : Nat) : Bool :=
  match v with
  | some (.jNum m) => m == Int.ofNat n
  | _ => false

/-- Model of `createReliabilityLayerWithACKNAK.receive` (main.js lines 20-29):
destructure the parsed packet, compute the CRC of the `data` field, and
return `"ACK"` on match, `"NAK"` on mismatch. The argument is the
`JSON.parse` result (`Option.none` for unparseable text). -/
def acknakReceive (parsed : Option JVal) : Except JsError Signal :=
  match parsed with
  | Option.none => .error .parseErr
  | some v =>
    match getField v "data", getField v "crc" with
    | .error e, _ => .error e
    | .ok _, .error e => .error e
    | .ok dataF, .ok crcF =>
      match bufferFromUtf8 dataF with
      | .error e => .error e
      | .ok bytes =>
        .ok (if jsStrictEqNum crcF (generateCRC8 bytes) then .ack else .nak)

/-- Model of `createReliabilityLayerWithACK.receive` (main.js lines 111-120): `"ACK"`
on checksum match, `null` on mismatch. -/
def ackOnlyReceive (parsed : Option JVal) : Except JsError Signal :=
  match parsed with
  | Option.none => .error .parseErr
  | some v =>
    match getField v "data", getField v "crc" with
    | .error e, _ => .error e
    | .ok _, .error e => .error e
    | .ok dataF, .ok crcF =>
      match bufferFromUtf8 dataF with
      | .error e => .error e
      | .ok bytes =>
        .ok (if jsStrictEqNum crcF (generateCRC8 bytes) then .ack else .none)

/-- Model of `createReliabilityLayerWithNAK.receive` (main.js lines 53-62): `null`
on checksum match, `"NAK"` on mismatch. -/
def nakOnlyReceive (parsed : Option JVal) : Except JsError Signal :=
  match parsed with
  | Option.none => .error .parseErr
  | some v =>
    match getField v "data", getField v "crc" with
    | .error e, _ => .error e
    | .ok _, .error e => .error e
    | .ok dataF, .ok crcF =>
      match bufferFromUtf8 dataF with
      | .error e => .error e
      | .ok bytes =>
        .ok (if jsStrictEqNum crcF (generateCRC8 bytes) then .none else .nak)

/-! ### `createReliabilityLayerWithACK.send` (main.js lines 81-109) as an
event system: each `sendWithTimeout` call creates one attempt (a fresh
`ackReceived` flag and a fresh timer); the channel may deliver a response to
an attempt's `handleResponse`, and an attempt's timer may fire. -/

/-- A scheduler event for the PositiveOnly sender: delivery of a response
string to attempt `i`'s `handleResponse`, or the firing of attempt `i`'s
`setTimeout` callback. -/
inductive SockEvent where
  | response : Nat → List Nat → SockEvent
  | timer : Nat → SockEvent
deriving DecidableEq

/-- State of one `createReliabilityLayerWithACK.send` call: the
`ackReceived` flag of each attempt in creation order, the number of
`callback()` invocations, and the number of `virtualSocket.send` calls. -/
structure AckOnlyState where
  acks : List Bool
  completions : Nat
  transmissions : Nat
deriving DecidableEq

/-- Effect of one event (main.js lines 90-105): `handleResponse` invoked
with `"ACK"` sets the attempt's flag and invokes `callback()`
unconditionally; any other response is ignored. A timer firing with its
attempt's flag still false runs `sendWithTimeout()` again, creating a new
attempt; with the flag set it does nothing. -/
def ackOnlyStep (st : AckOnlyState) (e : SockEvent) : AckOnlyState :=
  match e with
  | .response i resp =>
    if resp = ackCp ∧ i < st.acks.length then
      { st with acks := st.acks.set i true, completions := st.completions + 1 }
    else st
  | .timer i =>
    if st.acks.getD i true = false then
      { st with acks := st.acks ++ [false], transmissions := st.transmissions + 1 }
    else st

/-- State right after `send` runs `sendWithTimeout()` once: one attempt with
`ackReceived = false`, no completions, one transmission. -/
def ackOnlyInit : AckOnlyState := ⟨[false], 0, 1⟩

/-- Run a schedule of events against one PositiveOnly `send` call. -/
def ackOnlyRun (events : List SockEvent) : AckOnlyState :=
  events.foldl ackOnlyStep ackOnlyInit

/-- The attempt index an event concerns. -/
def sockEventIndex : SockEvent → Nat
  | .response i _ => i
  | .timer i => i

/-- A schedule is well formed from state `st` when every event concerns an
attempt that already exists at the moment the event is processed. -/
def ackOnlyValid : AckOnlyState → List SockEvent → Bool
  | _, [] => true
  | st, e :: es =>
    decide (sockEventIndex e < st.acks.length) && ackOnlyValid (ackOnlyStep st e) es

/-- The schedule in which the first `n` timers fire in order with no
response ever delivered — an always-dropping channel. -/
def timersSched (n : Nat) : List SockEvent := (List.range n).map .timer

/-! ### The response loops of the other two senders (main.js lines 6-17 and
39-50) fed with one response per transmission. -/

/-- Model of `createReliabilityLayerWithACKNAK.send`'s `handleResponse` chain, given
the response each successive transmission's handler receives; the result is
(number of `virtualSocket.send` calls, number of `callback()` invocations).
`"ACK"` completes, `"NAK"` retransmits the identical packet, anything else
stops the loop silently. -/
def acknakRespRun : List (List Nat) → Nat × Nat
  | [] => (1, 0)
  | r :: rest =>
    if r = ackCp then (1, 1)
    else if r = nakCp then
      ((acknakRespRun rest).1 + 1, (acknakRespRun rest).2)
    else (1, 0)

/-- Model of `createReliabilityLayerWithNAK.send`'s `handleResponse` chain (main.js
lines 39-50): `"NAK"` retransmits, any other response invokes `callback()`. -/
def nakOnlyRespRun : List (List Nat) → Nat × Nat
  | [] => (1, 0)
  | r :: rest =>
    if r = nakCp then
      ((nakOnlyRespRun rest).1 + 1, (nakOnlyRespRun rest).2)
    else (1, 1)

/-! ### Concrete instances used by the claims. -/

/-- The fraction 0. -/
def fr0 : Frac := ⟨0, 1⟩

/-- The fraction 1. -/
def fr1 : Frac := ⟨1, 1⟩

/-- A channel with every impairment probability set to 0. -/
def cfgClean : ChannelConfig := ⟨fr0, fr0, fr0, 1000⟩

/-- A channel that corrupts every delivery and never drops or delays. -/
def cfgCorrupt : ChannelConfig := ⟨fr0, fr0, fr1, 1000⟩

/-- The all-zero randomness record. -/
def randZero : Rand := ⟨fr0, fr0, fr0, fr0, fr0, fr0⟩

/-- Randomness choosing byte 0 and bit 7 for `introduceBitError`. -/
def randBit7 : Rand := ⟨fr0, fr0, fr0, fr0, fr0, ⟨7, 8⟩⟩

/-- Code points of the demo payload `"Hello, reliable world!"`
(main.js line 171). -/
def payloadHello : List Nat :=
  [72, 101, 108, 108, 111, 44, 32, 114, 101, 108, 105, 97, 98, 108, 101, 32,
    119, 111, 114, 108, 100, 33]

/-- The schedule of C9: attempt 0's timer fires first (retransmitting as
attempt 1), then attempt 0's ACK arrives late, then attempt 1's ACK arrives;
attempt 1's timer fires last and is ignored. -/
def c9Schedule : List SockEvent :=
  [.timer 0, .response 0 ackCp, .response 1 ackCp, .timer 1]

/-! ## Theorems -/

/-- C3: `generateCRC8` on the ASCII bytes of `"123456789"` equals `0xF4`,
the standard check value of CRC-8 with polynomial 0x07, init 0, no
reflection, no final XOR. -/
theorem crc8_check_value : generateCRC8 asciiDigits = 0xF4 := by decide

/-- C4: for the sample payload `"123456789"` (9 bytes, 72 bit positions),
flipping any single bit changes the value of `generateCRC8`. -/
theorem crc8_single_bit_sensitivity (i : Nat) (h : i < 72) :
    generateCRC8 (flipPayloadBit asciiDigits i) ≠ generateCRC8 asciiDigits := by
  revert h; revert i; decide

/-- Witness for `crc8_single_bit_sensitivity` at bit position 13. -/
theorem crc8_single_bit_sensitivity_witness :
    13 < 72 ∧
      generateCRC8 (flipPayloadBit asciiDigits 13) ≠ generateCRC8 asciiDigits :=
  ⟨by decide, crc8_single_bit_sensitivity 13 (by decide)⟩

/-- The decoder step consumes at least one byte. -/
theorem utf8Step_snd_pos (b : Nat) (rest : List Nat) : 0 < (utf8Step b rest).2 := by
  unfold utf8Step
  repeat' split
  all_goals norm_num

/-- The decoder step consumes at most four bytes. -/
theorem utf8Step_snd_le (b : Nat) (rest : List Nat) : (utf8Step b rest).2 ≤ 4 := by
  unfold utf8Step
  repeat' split
  all_goals norm_num

/-- The fuel argument of `utf8DecodeAux` is irrelevant once it reaches the
list length. -/
theorem utf8DecodeAux_congr :
    ∀ (f₁ f₂ : Nat) (l : List Nat), l.length ≤ f₁ → l.length ≤ f₂ →
      utf8DecodeAux f₁ l = utf8DecodeAux f₂ l := by
  intro f₁
  induction f₁ with
  | zero =>
    intro f₂ l h₁ _
    match l with
    | [] => cases f₂ <;> rfl
    | _ :: _ => simp at h₁
  | succ f ih =>
    intro f₂ l h₁ h₂
    match l with
    | [] => cases f₂ <;> rfl
    | b :: rest =>
      match f₂ with
      | 0 => simp at h₂
      | f' + 1 =>
        simp only [utf8DecodeAux]
        have hd : (rest.drop ((utf8Step b rest).2 - 1)).length ≤ rest.length := by
          simp [List.length_drop]
        simp only [List.length_cons] at h₁ h₂
        exact congrArg _ (ih f' _ (le_trans hd (by omega)) (le_trans hd (by omega)))

/-- Unfolding equation for `utf8DecodeRepl` on a nonempty list. -/
theorem utf8DecodeRepl_cons (b : Nat) (rest : List Nat) :
    utf8DecodeRepl (b :: rest) =
      (utf8Step b rest).1 :: utf8DecodeRepl (rest.drop ((utf8Step b rest).2 - 1)) := by
  show utf8DecodeAux (b :: rest).length (b :: rest) = _
  simp only [List.length_cons, utf8DecodeAux]
  refine congrArg _ (utf8DecodeAux_congr _ _ _ ?_ le_rfl)
  simp [List.length_drop]

theorem utf8DecodeRepl_nil : utf8DecodeRepl [] = [] := rfl

/-- Encoding an ASCII code point yields the single identical byte. -/
theorem utf8EncodeChar_ascii (c : Nat) (h : c ≤ 0x7F) : utf8EncodeChar c = [c] := by
  unfold utf8EncodeChar
  rw [if_pos (by omega)]

/-- Encoding an all-ASCII code-point list is the identity. -/
theorem utf8Encode_ascii :
    ∀ l : List Nat, (∀ x ∈ l, x ≤ 0x7F) → utf8Encode l = l := by
  intro l
  induction l with
  | nil => intro _; rfl
  | cons c rest ih =>
    intro h
    simp only [utf8Encode, List.map_cons, List.flatten_cons] at *
    rw [utf8EncodeChar_ascii c (h c (by simp)), ih fun x hx => h x (by simp [hx])]
    rfl

/-- Encoding distributes over append. -/
theorem utf8Encode_append (a b : List Nat) :
    utf8Encode (a ++ b) = utf8Encode a ++ utf8Encode b := by
  simp [utf8Encode]

/-- Encoding of a cons cell. -/
theorem utf8Encode_cons (c : Nat) (l : List Nat) :
    utf8Encode (c :: l) = utf8EncodeChar c ++ utf8Encode l := by
  simp [utf8Encode]

/-- Each code point encodes to at least one byte. -/
theorem utf8EncodeChar_length_pos (c : Nat) : 0 < (utf8EncodeChar c).length := by
  unfold utf8EncodeChar
  repeat' split
  all_goals norm_num

/-- Encoding does not shorten a code-point list. -/
theorem length_le_utf8Encode :
    ∀ l : List Nat, l.length ≤ (utf8Encode l).length := by
  intro l
  induction l with
  | nil => simp [utf8Encode]
  | cons c rest ih =>
    simp only [utf8Encode, List.map_cons, List.flatten_cons, List.length_append,
      List.length_cons] at *
    have := utf8EncodeChar_length_pos c
    omega

/-- The decoder step on an ASCII byte emits it and consumes one byte. -/
theorem utf8Step_ascii (b : Nat) (rest : List Nat) (h : b ≤ 0x7F) :
    utf8Step b rest = (b, 1) := by
  unfold utf8Step
  rw [if_pos h]

/-- Decoding an all-ASCII byte list is the identity. -/
theorem utf8DecodeRepl_ascii :
    ∀ l : List Nat, (∀ x ∈ l, x ≤ 0x7F) → utf8DecodeRepl l = l := by
  intro l
  induction l with
  | nil => intro _; rfl
  | cons b rest ih =>
    intro h
    rw [utf8DecodeRepl_cons, utf8Step_ascii b rest (h b (by simp))]
    simp only [List.drop_zero, Nat.sub_self]
    rw [ih fun x hx => h x (by simp [hx])]

/-- Decoding n bytes yields at least n / 4 code points (each step consumes
at most four bytes and emits one code point). -/
theorem utf8DecodeRepl_length :
    ∀ (n : Nat) (l : List Nat), l.length ≤ n →
      l.length ≤ 4 * (utf8DecodeRepl l).length := by
  intro n
  induction n with
  | zero =>
    intro l h
    match l with
    | [] => simp
    | _ :: _ => simp at h
  | succ n ih =>
    intro l h
    match l with
    | [] => simp
    | b :: rest =>
      rw [utf8DecodeRepl_cons]
      have h4 := utf8Step_snd_le b rest
      have hdl : (rest.drop ((utf8Step b rest).2 - 1)).length =
          rest.length - ((utf8Step b rest).2 - 1) := by
        simp [List.length_drop]
      have hrec := ih (rest.drop ((utf8Step b rest).2 - 1)) (by
        simp only [List.length_cons] at h
        omega)
      simp only [List.length_cons] at *
      omega

/-- The first admissible continuation byte is always at least 0x80. -/
theorem utf8Cont1Lo_ge (b : Nat) : 0x80 ≤ utf8Cont1Lo b := by
  unfold utf8Cont1Lo
  repeat' split
  all_goals norm_num

/-- A byte in 0x80-0xFF followed by ASCII (or nothing) is an invalid
sequence: the decoder emits U+FFFD and consumes exactly one byte. -/
theorem utf8Step_invalid (b : Nat) (rest : List Nat)
    (hb : 0x80 ≤ b) (hr : ∀ x ∈ rest, x ≤ 0x7F) :
    utf8Step b rest = (0xFFFD, 1) := by
  have hnb : ¬ b ≤ 0x7F := by omega
  have hlo := utf8Cont1Lo_ge b
  unfold utf8Step
  rw [if_neg hnb]
  rcases rest with _ | ⟨c, rest'⟩
  · split_ifs <;> rfl
  · have hc : c ≤ 0x7F := hr c (by simp)
    have hcont : ¬ (0x80 ≤ c ∧ c ≤ 0xBF) := by omega
    have hcont1 : ¬ (utf8Cont1Lo b ≤ c ∧ c ≤ utf8Cont1Hi b) := by omega
    split_ifs <;> simp [hcont, hcont1]

/-- Decoding an all-ASCII list with one byte in 0x80-0xFF inserted replaces
that byte with U+FFFD and leaves everything else unchanged. -/
theorem utf8DecodeRepl_one_bad :
    ∀ (p : List Nat) (y : Nat) (s : List Nat),
      (∀ x ∈ p, x ≤ 0x7F) → 0x80 ≤ y → (∀ x ∈ s, x ≤ 0x7F) →
      utf8DecodeRepl (p ++ y :: s) = p ++ 0xFFFD :: s := by
  intro p
  induction p with
  | nil =>
    intro y s _ hy hs
    simp only [List.nil_append]
    rw [utf8DecodeRepl_cons, utf8Step_invalid y s hy hs]
    simp only [Nat.sub_self, List.drop_zero]
    rw [utf8DecodeRepl_ascii s hs]
  | cons a p' ih =>
    intro y s hp hy hs
    simp only [List.cons_append]
    rw [utf8DecodeRepl_cons, utf8Step_ascii a _ (hp a (by simp))]
    simp only [Nat.sub_self, List.drop_zero]
    rw [ih y s (fun x hx => hp x (by simp [hx])) hy hs]

/-- C6: per `createVirtualSocket.send` call, when the drop trial fires no
callback is ever invoked (silent loss, no signal of any kind); otherwise the
callback is invoked exactly once, carrying the possibly-corrupted data. -/
theorem channel_drop_or_deliver_once (cfg : ChannelConfig) (r : Rand)
    (data : List Nat) :
    (fracLt r.dropRoll cfg.dropProbability → virtualSocketSend cfg r data = []) ∧
    (¬ fracLt r.dropRoll cfg.dropProbability →
      ∃ d : Delivery, virtualSocketSend cfg r data = [d] ∧
        d.data = maybeCorruptData cfg r data) := by
  constructor
  · intro h
    simp [virtualSocketSend, h]
  · intro h
    unfold virtualSocketSend
    rw [if_neg h]
    split_ifs <;> exact ⟨_, rfl, rfl⟩

/-- Witness for `channel_drop_or_deliver_once`: a clean channel with all-zero
draws delivers the string `"A"` unchanged, exactly once. -/
theorem channel_drop_or_deliver_once_witness :
    (¬ fracLt randZero.dropRoll cfgClean.dropProbability) ∧
      (∃ d : Delivery, virtualSocketSend cfgClean randZero [65] = [d] ∧
        d.data = maybeCorruptData cfgClean randZero [65]) :=
  ⟨by decide, (channel_drop_or_deliver_once cfgClean randZero [65]).2 (by decide)⟩

/-- The digit list produced by `natDecimalAux` is never empty. -/
theorem natDecimalAux_length_pos :
    ∀ (fuel n : Nat), 0 < (natDecimalAux fuel n).length := by
  intro fuel
  induction fuel with
  | zero => intro n; simp [natDecimalAux]
  | succ f ih =>
    intro n
    unfold natDecimalAux
    split_ifs
    · simp
    · simp only [List.length_append, List.length_cons]
      omega

/-- A serialized envelope has at least 19 characters (8 for `{"data":`,
2 quotes, 7 for `,"crc":`, at least one digit, and `}`). -/
theorem envelopeString_length (payload : List Nat) :
    19 ≤ (envelopeString payload).length := by
  unfold envelopeString jsonQuote natDecimal
  have := natDecimalAux_length_pos (generateCRC8 (utf8Encode payload))
    (generateCRC8 (utf8Encode payload))
  simp only [List.length_append, List.length_cons, List.cons_append]
  omega

/-- Whatever the channel does to a serialized envelope, the resulting string
keeps at least 5 characters — in particular it is never the 3-character
strings `"ACK"` or `"NAK"`. -/
theorem maybeCorruptData_length (cfg : ChannelConfig) (r : Rand)
    (payload : List Nat) :
    5 ≤ (maybeCorruptData cfg r (envelopeString payload)).length := by
  have henv := envelopeString_length payload
  unfold maybeCorruptData
  split_ifs with h
  · unfold introduceBitError
    have h1 : 19 ≤ (utf8Encode (envelopeString payload)).length :=
      le_trans henv (length_le_utf8Encode _)
    have h2 : (flipBitAt (utf8Encode (envelopeString payload))
        (fracMulNatFloor r.byteFrac (utf8Encode (envelopeString payload)).length)
        (fracMulNatFloor r.bitFrac 8)).length =
        (utf8Encode (envelopeString payload)).length := by
      simp [flipBitAt]
    have h3 := utf8DecodeRepl_length
      (flipBitAt (utf8Encode (envelopeString payload))
        (fracMulNatFloor r.byteFrac (utf8Encode (envelopeString payload)).length)
        (fracMulNatFloor r.bitFrac 8)).length _ le_rfl
    omega
  · omega

/-- C2: every delivery the channel makes for a transmitted envelope hands the
sender's `handleResponse` the possibly-corrupted envelope string itself —
never the receiver-produced `"ACK"` or `"NAK"` signals, since no `receive`
function is on the delivery path (see `virtualSocketSend` and
`acknakHandle`). -/
theorem response_is_envelope_not_signal (cfg : ChannelConfig) (r : Rand)
    (payload : List Nat) (d : Delivery)
    (hd : d ∈ virtualSocketSend cfg r (envelopeString payload)) :
    d.data = maybeCorruptData cfg r (envelopeString payload) ∧
      d.data ≠ ackCp ∧ d.data ≠ nakCp := by
  have hdata : d.data = maybeCorruptData cfg r (envelopeString payload) := by
    unfold virtualSocketSend at hd
    split_ifs at hd
    · simp at hd
    · simp only [List.mem_singleton] at hd
      rw [hd]
    · simp only [List.mem_singleton] at hd
      rw [hd]
  have hlen := maybeCorruptData_length cfg r payload
  refine ⟨hdata, ?_, ?_⟩
  · rw [hdata]
    intro hEq
    rw [hEq] at hlen
    simp [ackCp] at hlen
  · rw [hdata]
    intro hEq
    rw [hEq] at hlen
    simp [nakCp] at hlen

/-- Witness for `response_is_envelope_not_signal`: the clean channel's
delivery of the envelope of `"A"`. -/
theorem response_is_envelope_not_signal_witness :
    (⟨Option.none, envelopeString [65]⟩ : Delivery) ∈
        virtualSocketSend cfgClean randZero (envelopeString [65]) ∧
      ((⟨Option.none, envelopeString [65]⟩ : Delivery).data =
          maybeCorruptData cfgClean randZero (envelopeString [65]) ∧
        (⟨Option.none, envelopeString [65]⟩ : Delivery).data ≠ ackCp ∧
        (⟨Option.none, envelopeString [65]⟩ : Delivery).data ≠ nakCp) :=
  ⟨by decide,
    response_is_envelope_not_signal cfgClean randZero [65] _ (by decide)⟩

/-- C1 (the code violates the claim): on a channel with every impairment
probability 0, `createReliabilityLayerWithACKNAK.send(payload, cb)` composed
with the virtual socket never invokes `cb` — the delivered response is the
envelope itself, which matches neither `"ACK"` nor `"NAK"`, so
`handleResponse` does nothing (and no `receive` is ever invoked). -/
theorem acknak_clean_send_no_callback :
    ∀ fuel : Nat,
      acknakSendCbCount cfgClean (fun _ => randZero) payloadHello fuel = 0 := by
  intro fuel
  cases fuel with
  | zero => rfl
  | succ n =>
    have hsend : virtualSocketSend cfgClean randZero (envelopeString payloadHello) =
        [⟨Option.none, envelopeString payloadHello⟩] := by
      unfold virtualSocketSend maybeCorruptData
      rw [if_neg (by decide), if_neg (by decide), if_neg (by decide)]
    have hack : envelopeString payloadHello ≠ ackCp := by decide
    have hnak : envelopeString payloadHello ≠ nakCp := by decide
    unfold acknakSendCbCount acknakHandle
    rw [hsend]
    simp [hack, hnak]

/-- For a draw `f ∈ [0, 1)`, `Math.floor(f * n)` lands strictly below `n`. -/
theorem fracMulNatFloor_lt (f : Frac) (n : Nat) (hf : ValidFrac f) (hn : 0 < n) :
    fracMulNatFloor f n < n := by
  rcases hf with ⟨hden, hnum⟩
  unfold fracMulNatFloor
  rw [Nat.div_lt_iff_lt_mul hden]
  have := Nat.mul_lt_mul_of_pos_right hnum hn
  calc f.num * n < f.den * n := this
    _ = n * f.den := Nat.mul_comm _ _

/-- Flipping one of the low seven bits of an ASCII byte keeps it ASCII. -/
theorem xor_low_bit_ascii : ∀ x < 128, ∀ k < 7, x ^^^ (1 <<< k) < 128 := by
  decide

/-- Flipping bit 7 of an ASCII byte adds 128. -/
theorem xor_bit7 : ∀ x < 128, x ^^^ (1 <<< 7) = x + 128 := by decide

/-- C7 counterexample: corrupting the serialized envelope of `"A"` with byte
index 0 and bit index 7 does NOT deliver bytes one bit apart from the sent
bytes — the flipped byte 0xFB is invalid UTF-8, and `toString("utf8")`
replaces it with the three-byte U+FFFD sequence. -/
theorem corruption_not_one_bit_flip :
    ¬ oneBitApart (utf8Encode (envelopeString [65]))
      (utf8Encode (maybeCorruptData cfgCorrupt randBit7 (envelopeString [65]))) := by
  decide

/-- C7 amended: when the corruption trial fires on an envelope whose UTF-8
bytes are all ASCII, a chosen bit index 0-6 yields delivered bytes that are
exactly the sent bytes with that one bit of that one byte flipped; a chosen
bit index of 7, however, makes the flipped byte invalid UTF-8, and the
delivered bytes are the sent bytes with that byte replaced by the three-byte
U+FFFD sequence — three bytes differ and the length grows by two. -/
theorem corruption_flip_details (cfg : ChannelConfig) (r : Rand) (s : List Nat)
    (hfire : fracLt r.corruptRoll cfg.errorProbability)
    (hv : ValidFrac r.byteFrac) (hbv : ValidFrac r.bitFrac)
    (hascii : ∀ x ∈ utf8Encode s, x ≤ 0x7F)
    (hne : utf8Encode s ≠ []) :
    (fracMulNatFloor r.bitFrac 8 < 7 →
      utf8Encode (maybeCorruptData cfg r s) =
        flipBitAt (utf8Encode s)
          (fracMulNatFloor r.byteFrac (utf8Encode s).length)
          (fracMulNatFloor r.bitFrac 8) ∧
      oneBitApart (utf8Encode s) (utf8Encode (maybeCorruptData cfg r s))) ∧
    (fracMulNatFloor r.bitFrac 8 = 7 →
      utf8Encode (maybeCorruptData cfg r s) =
        (utf8Encode s).take (fracMulNatFloor r.byteFrac (utf8Encode s).length)
          ++ [0xEF, 0xBF, 0xBD]
          ++ (utf8Encode s).drop
              (fracMulNatFloor r.byteFrac (utf8Encode s).length + 1)) := by
  have hlen : 0 < (utf8Encode s).length := List.length_pos.mpr hne
  have hi : fracMulNatFloor r.byteFrac (utf8Encode s).length <
      (utf8Encode s).length := fracMulNatFloor_lt _ _ hv hlen
  have hk8 : fracMulNatFloor r.bitFrac 8 < 8 :=
    fracMulNatFloor_lt _ _ hbv (by norm_num)
  have hmc : maybeCorruptData cfg r s = introduceBitError r s := if_pos hfire
  have hx : (utf8Encode s).getD (fracMulNatFloor r.byteFrac (utf8Encode s).length) 0
      < 128 := by
    have hmem : (utf8Encode s).getD
        (fracMulNatFloor r.byteFrac (utf8Encode s).length) 0 ∈ utf8Encode s := by
      rw [List.getD_eq_getElem _ _ hi]
      exact List.getElem_mem hi
    have := hascii _ hmem
    omega
  constructor
  · intro hk7
    have hy := xor_low_bit_ascii _ hx _ hk7
    have hflip_ascii : ∀ x ∈ flipBitAt (utf8Encode s)
        (fracMulNatFloor r.byteFrac (utf8Encode s).length)
        (fracMulNatFloor r.bitFrac 8), x ≤ 0x7F := by
      intro x hxmem
      rcases List.mem_or_eq_of_mem_set hxmem with hm | he
      · exact hascii x hm
      · omega
    have hdec : introduceBitError r s = flipBitAt (utf8Encode s)
        (fracMulNatFloor r.byteFrac (utf8Encode s).length)
        (fracMulNatFloor r.bitFrac 8) := by
      unfold introduceBitError
      exact utf8DecodeRepl_ascii _ hflip_ascii
    rw [hmc, hdec, utf8Encode_ascii _ hflip_ascii]
    exact ⟨rfl, _, hi, _, hk8, rfl⟩
  · intro hk7
    have hy128 : 128 ≤ (utf8Encode s).getD
        (fracMulNatFloor r.byteFrac (utf8Encode s).length) 0 ^^^
        (1 <<< fracMulNatFloor r.bitFrac 8) := by
      rw [hk7, xor_bit7 _ hx]
      omega
    have hset : flipBitAt (utf8Encode s)
        (fracMulNatFloor r.byteFrac (utf8Encode s).length)
        (fracMulNatFloor r.bitFrac 8) =
        (utf8Encode s).take (fracMulNatFloor r.byteFrac (utf8Encode s).length)
          ++ ((utf8Encode s).getD (fracMulNatFloor r.byteFrac (utf8Encode s).length) 0
              ^^^ (1 <<< fracMulNatFloor r.bitFrac 8))
          :: (utf8Encode s).drop
              (fracMulNatFloor r.byteFrac (utf8Encode s).length + 1) :=
      List.set_eq_take_cons_drop _ hi
    have htake : ∀ x ∈ (utf8Encode s).take
        (fracMulNatFloor r.byteFrac (utf8Encode s).length), x ≤ 0x7F :=
      fun x hx' => hascii x (List.mem_of_mem_take hx')
    have hdrop : ∀ x ∈ (utf8Encode s).drop
        (fracMulNatFloor r.byteFrac (utf8Encode s).length + 1), x ≤ 0x7F :=
      fun x hx' => hascii x (List.mem_of_mem_drop hx')
    have hfffd : utf8EncodeChar 0xFFFD = [0xEF, 0xBF, 0xBD] := by decide
    rw [hmc]
    unfold introduceBitError
    rw [hset, utf8DecodeRepl_one_bad _ _ _ htake hy128 hdrop,
      utf8Encode_append, utf8Encode_cons, hfffd,
      utf8Encode_ascii _ htake, utf8Encode_ascii _ hdrop]
    simp

/-- Witness for `corruption_flip_details`: the envelope of `"A"` corrupted
at byte 0, bit 0. -/
theorem corruption_flip_details_witness :
    (fracLt randZero.corruptRoll cfgCorrupt.errorProbability ∧
      ValidFrac randZero.byteFrac ∧ ValidFrac randZero.bitFrac ∧
      (∀ x ∈ utf8Encode [65], x ≤ 0x7F) ∧ utf8Encode [65] ≠ [] ∧
      fracMulNatFloor randZero.bitFrac 8 < 7) ∧
    utf8Encode (maybeCorruptData cfgCorrupt randZero [65]) =
      flipBitAt (utf8Encode [65])
        (fracMulNatFloor randZero.byteFrac (utf8Encode [65]).length)
        (fracMulNatFloor randZero.bitFrac 8) ∧
    oneBitApart (utf8Encode [65])
      (utf8Encode (maybeCorruptData cfgCorrupt randZero [65])) :=
  ⟨⟨by decide, by decide, by decide, by decide, by decide, by decide⟩,
    (corruption_flip_details cfgCorrupt randZero [65] (by decide) (by decide)
      (by decide) (by decide) (by decide)).1 (by decide)⟩

/-- C5: for every well-formed envelope record (a parsed object whose `data`
field is a string and whose `crc` field is a number), each variant's receive
maps the checksum outcome to its signal exactly as the table states:
PositiveNegative ACK/NAK, PositiveOnly ACK/NONE, NegativeOnly NONE/NAK. -/
theorem receive_signal_table (fields : List (String × JVal)) (s : List Nat)
    (n : Int)
    (hdata : lookupField fields "data" = some (.jStr s))
    (hcrc : lookupField fields "crc" = some (.jNum n)) :
    acknakReceive (some (.jObj fields)) =
      .ok (if n = Int.ofNat (generateCRC8 (utf8Encode s)) then .ack else .nak) ∧
    ackOnlyReceive (some (.jObj fields)) =
      .ok (if n = Int.ofNat (generateCRC8 (utf8Encode s)) then .ack else .none) ∧
    nakOnlyReceive (some (.jObj fields)) =
      .ok (if n = Int.ofNat (generateCRC8 (utf8Encode s)) then .none else .nak) := by
  refine ⟨?_, ?_, ?_⟩ <;>
    simp [acknakReceive, ackOnlyReceive, nakOnlyReceive, getField, hdata, hcrc,
      bufferFromUtf8, jsStrictEqNum, beq_iff_eq]

/-- Witness for `receive_signal_table`: a record carrying `"A"` with the
(incorrect) checksum 0. -/
theorem receive_signal_table_witness :
    (lookupField [("data", JVal.jStr [65]), ("crc", JVal.jNum 0)] "data" =
        some (JVal.jStr [65]) ∧
      lookupField [("data", JVal.jStr [65]), ("crc", JVal.jNum 0)] "crc" =
        some (JVal.jNum 0)) ∧
    acknakReceive (some (.jObj [("data", JVal.jStr [65]), ("crc", JVal.jNum 0)])) =
      .ok (if (0 : Int) = Int.ofNat (generateCRC8 (utf8Encode [65]))
        then .ack else .nak) :=
  ⟨⟨rfl, rfl⟩,
    (receive_signal_table [("data", JVal.jStr [65]), ("crc", JVal.jNum 0)]
      [65] 0 rfl rfl).1⟩

/-- C8 counterexample: a record with a `data` field but no `crc` field does
not fail — `receive` returns the signal `"NAK"`, because `undefined === n`
is simply `false`. -/
theorem receive_missing_crc_returns_nak :
    acknakReceive (some (.jObj [("data", JVal.jStr [65])])) = .ok .nak := rfl

/-- C8 amended: text that is not JSON fails with a SyntaxError and yields no
signal, and a parsed record without a usable `data` field fails with a
TypeError (raised by `Buffer.from` inside the checksum computation, not by a
decode step); but a record whose `data` field is a string and whose `crc`
field is missing or not a number does not fail at all — the strict equality
is false and `receive` returns the mismatch signal `"NAK"`. -/
theorem receive_malformed_behavior :
    (acknakReceive Option.none = .error .parseErr) ∧
    (acknakReceive (some .jNull) = .error .typeErr) ∧
    (∀ fields : List (String × JVal), lookupField fields "data" = Option.none →
      acknakReceive (some (.jObj fields)) = .error .typeErr) ∧
    (∀ (fields : List (String × JVal)) (s : List Nat),
      lookupField fields "data" = some (.jStr s) →
      (∀ m : Int, lookupField fields "crc" ≠ some (.jNum m)) →
      acknakReceive (some (.jObj fields)) = .ok .nak) := by
  refine ⟨rfl, rfl, ?_, ?_⟩
  · intro fields h
    simp [acknakReceive, getField, h, bufferFromUtf8]
  · intro fields s hdata hcrc
    have hne : jsStrictEqNum (lookupField fields "crc")
        (generateCRC8 (utf8Encode s)) = false := by
      unfold jsStrictEqNum
      cases hm : lookupField fields "crc" with
      | none => rfl
      | some v =>
        cases v with
        | jNum m => exact absurd hm (hcrc m)
        | jNull => rfl
        | jBool b => rfl
        | jStr t => rfl
        | jArr xs => rfl
        | jObj fs => rfl
    simp [acknakReceive, getField, hdata, hne, bufferFromUtf8]

/-- Witness for `receive_malformed_behavior`: the missing-`crc` record. -/
theorem receive_malformed_behavior_witness :
    (lookupField [("data", JVal.jStr [65])] "data" = some (JVal.jStr [65])) ∧
    acknakReceive (some (.jObj [("data", JVal.jStr [65])])) = .ok .nak :=
  ⟨rfl,
    receive_malformed_behavior.2.2.2 [("data", JVal.jStr [65])] [65] rfl
      (fun m h => by
        rw [show lookupField [("data", JVal.jStr [65])] "crc" = Option.none
          from rfl] at h
        exact Option.noConfusion h)⟩

/-- C9: for the PositiveOnly sender there is a well-formed delivery schedule
(each event concerns an existing attempt, each attempt gets at most one
response delivery and one timer firing) in which attempt 0's timeout fires
before its ACK arrives, retransmission creates attempt 1, and then both ACKs
arrive: `callback()` runs twice for a single `send` call. -/
theorem ackonly_late_ack_double_completion :
    ackOnlyValid ackOnlyInit c9Schedule = true ∧
    (c9Schedule.filterMap fun e =>
      match e with
      | .response i _ => some i
      | .timer _ => Option.none).Nodup ∧
    (c9Schedule.filterMap fun e =>
      match e with
      | .timer i => some i
      | .response _ _ => Option.none).Nodup ∧
    (ackOnlyRun c9Schedule).completions = 2 ∧
    (ackOnlyRun c9Schedule).transmissions = 2 := by
  decide

/-- Running `acknakRespRun` on `n` NAK responses: `n + 1` transmissions of the same
packet and no completion. -/
theorem acknakRespRun_allNak (n : Nat) :
    acknakRespRun (List.replicate n nakCp) = (n + 1, 0) := by
  induction n with
  | zero => rfl
  | succ m ih =>
    rw [List.replicate_succ]
    unfold acknakRespRun
    rw [if_neg (by decide), if_pos rfl, ih]

/-- Running `nakOnlyRespRun` on `n` NAK responses: `n + 1` transmissions and no
completion. -/
theorem nakOnlyRespRun_allNak (n : Nat) :
    nakOnlyRespRun (List.replicate n nakCp) = (n + 1, 0) := by
  induction n with
  | zero => rfl
  | succ m ih =>
    rw [List.replicate_succ]
    unfold nakOnlyRespRun
    rw [if_pos rfl, ih]

/-- Running the first `n` timer firings of the PositiveOnly sender: `n + 1`
attempts all still unacknowledged, no completion, `n + 1` transmissions. -/
theorem ackOnlyRun_timers (n : Nat) :
    ackOnlyRun (timersSched n) =
      ⟨List.replicate (n + 1) false, 0, n + 1⟩ := by
  induction n with
  | zero => rfl
  | succ m ih =>
    have hsched : timersSched (m + 1) = timersSched m ++ [.timer m] := by
      simp [timersSched, List.range_succ]
    rw [hsched]
    unfold ackOnlyRun at *
    rw [List.foldl_append, ih]
    simp only [List.foldl_cons, List.foldl_nil]
    unfold ackOnlyStep
    have hgetD : (List.replicate (m + 1) false).getD m true = false := by
      simp [List.getD]
    simp [hgetD, List.replicate_succ']

/-- Validity of a schedule extended by one event. -/
theorem ackOnlyValid_append (st : AckOnlyState) (es : List SockEvent)
    (e : SockEvent) :
    ackOnlyValid st (es ++ [e]) =
      (ackOnlyValid st es &&
        decide (sockEventIndex e < (List.foldl ackOnlyStep st es).acks.length)) := by
  induction es generalizing st with
  | nil => simp [ackOnlyValid]
  | cons a es' ih =>
    simp only [List.cons_append, ackOnlyValid, List.foldl_cons, List.append_eq,
      ih, Bool.and_assoc]

/-- The all-timers schedule is well formed: each timer fires for an attempt
that exists when it fires. -/
theorem ackOnlyValid_timers (n : Nat) :
    ackOnlyValid ackOnlyInit (timersSched n) = true := by
  induction n with
  | zero => rfl
  | succ m ih =>
    have hsched : timersSched (m + 1) = timersSched m ++ [.timer m] := by
      simp [timersSched, List.range_succ]
    have hrun := ackOnlyRun_timers m
    unfold ackOnlyRun at hrun
    rw [hsched, ackOnlyValid_append, ih, hrun]
    simp [sockEventIndex]

/-- C10: none of the three variants bounds retransmission. With every
delivery answered `"NAK"` (an always-corrupting channel as seen by the
PositiveNegative and NegativeOnly senders), or with every delivery dropped
so that only timeouts fire (the PositiveOnly sender), `n` failing attempts
produce `n + 1` transmissions of the same unchanged packet for every `n`,
and `callback()` never runs. -/
theorem unbounded_retransmission (n : Nat) :
    acknakRespRun (List.replicate n nakCp) = (n + 1, 0) ∧
    nakOnlyRespRun (List.replicate n nakCp) = (n + 1, 0) ∧
    (ackOnlyRun (timersSched n)).transmissions = n + 1 ∧
    (ackOnlyRun (timersSched n)).completions = 0 ∧
    ackOnlyValid ackOnlyInit (timersSched n) = true :=
  ⟨acknakRespRun_allNak n, nakOnlyRespRun_allNak n,
    by rw [ackOnlyRun_timers n], by rw [ackOnlyRun_timers n],
    ackOnlyValid_timers n⟩

end RelUdp
